import Mathlib

/-!
Verification of the VIX/CNN market-sentiment signal pipeline
(`src/single_generator.py` and `src/data_fatcher.py`).

Modelling conventions:
* Numeric indicator values (VIX, CNN Fear and Greed, SPY price) are rationals.
  A pandas missing value (NaN) is modelled as `Option.none`; a pandas
  comparison of NaN against a bound is `false`, which the helper comparators
  below reproduce.
* Dates are natural numbers (days); a pandas `DatetimeIndex` is a list of
  such days.
* Raising an exception is modelled with `Except`.
-/

namespace VixCnn

/-- The closed label enumeration produced by the signal engine. -/
inductive Signal where
  | BUY
  | SELL
  | HOLD
deriving DecidableEq, Repr

/-- One row of the merged frame: its date plus the three data columns
(in the order the pipeline assembles them: spy_price, vix, cnn_fg).
A `none` field models a pandas NaN. -/
structure Row where
  date : Nat
  spy_price : Option ℚ
  vix : Option ℚ
  cnn_fg : Option ℚ
deriving DecidableEq, Repr

/-- The four threshold fields stored by `SignalGenerator.__init__`
(lines 73-81). The constructor body only assigns the fields; it performs
no validation, so the embedding is the plain structure constructor. -/
structure SignalGenerator where
  buy_fg_threshold : ℚ
  buy_vix_threshold : ℚ
  sell_fg_threshold : ℚ
  sell_vix_threshold : ℚ
deriving DecidableEq, Repr

/-- The default thresholds of `SignalGenerator.__init__`: 20, 30, 80, 15. -/
def defaultGenerator : SignalGenerator :=
  { buy_fg_threshold := 20
    buy_vix_threshold := 30
    sell_fg_threshold := 80
    sell_vix_threshold := 15 }

/-- Embeds `SignalGenerator.generate_signal` (lines 83-93): HOLD when cnn_fg or vix
is missing; BUY when fg <= buy_fg_threshold and vix >= buy_vix_threshold;
else SELL when fg >= sell_fg_threshold and vix <= sell_vix_threshold;
else HOLD. -/
def generate_signal (g : SignalGenerator) (row : Row) : Signal :=
  match row.cnn_fg, row.vix with
  | none, _ => .HOLD
  | _, none => .HOLD
  | some fg, some vix =>
    if fg ≤ g.buy_fg_threshold ∧ g.buy_vix_threshold ≤ vix then .BUY
    else if g.sell_fg_threshold ≤ fg ∧ vix ≤ g.sell_vix_threshold then .SELL
    else .HOLD

/-- Pandas comparison `x < c` where `x` may be NaN (`none`): NaN compares
false against every bound. Used by the range checks of `_validate_data`. -/
def oltB (x : Option ℚ) (c : ℚ) : Bool :=
  match x with
  | none => false
  | some v => v < c

/-- Pandas comparison `x > c` where `x` may be NaN (`none`). -/
def ogtB (x : Option ℚ) (c : ℚ) : Bool :=
  match x with
  | none => false
  | some v => c < v

/-- Pandas `df.isnull()` on one row: true when any field is NaN. -/
def hasNullB (r : Row) : Bool :=
  r.spy_price.isNone || r.vix.isNone || r.cnn_fg.isNone

/-- Consecutive differences of the date index, as produced by
`df.index.to_series().diff()` (its leading NaT dropped). -/
def dateGaps : List Nat → List Nat
  | a :: b :: rest => (b - a) :: dateGaps (b :: rest)
  | _ => []

/-- The non-fatal findings `_validate_data` can log. -/
inductive Finding where
  | missingValues
  | dateGap
deriving DecidableEq, Repr

/-- The warnings logged by `_validate_data` (lines 100-103 and 114-117):
a missing-value warning when any field of any row is null, and a gap warning
when the maximum consecutive date difference exceeds 5 days.  The code
compares `date_diff.max().days > 5`, which holds exactly when some
consecutive gap exceeds 5. -/
def validateFindings (df : List Row) : List Finding :=
  (if df.any hasNullB then [Finding.missingValues] else []) ++
    (if (dateGaps (df.map Row.date)).any (fun g => 5 < g) then [Finding.dateGap] else [])

/-- The fatal behaviour of `_validate_data` (lines 105-112): raise
`ValueError("Invalid VIX data")` when any vix value is `< 0`, else raise
`ValueError("Invalid CNN Fear and Greed data")` when any cnn_fg value is
`< 0` or `> 100`; otherwise return normally.  NaN values never satisfy the
comparisons (see `oltB`/`ogtB`). -/
def validateResult (df : List Row) : Except String Unit :=
  if df.any (fun r => oltB r.vix 0) then .error "Invalid VIX data"
  else if df.any (fun r => oltB r.cnn_fg 0 || ogtB r.cnn_fg 100) then
    .error "Invalid CNN Fear and Greed data"
  else .ok ()

/-- The run-length loop of `_print_signal_stats` (lines 159-167), step
function: walking the signal column, a HOLD increments the current run
counter; any other label appends the (positive) counter to the collected
run lengths and resets it. -/
def holdStep (acc : List Nat × Nat) (s : Signal) : List Nat × Nat :=
  match s with
  | .HOLD => (acc.1, acc.2 + 1)
  | _ => (if 0 < acc.2 then acc.1 ++ [acc.2] else acc.1, 0)

/-- The list `hold_periods` as computed by `_print_signal_stats`: the loop runs over
the whole signal column and the list collected so far is what remains after
it — the final value of `current_period` is discarded, never appended. -/
def hold_periods (signals : List Signal) : List Nat :=
  (signals.foldl holdStep ([], 0)).1

/-- The mean run length logged by `_print_signal_stats` (lines 169-171)
when at least one run was collected, 0 otherwise. -/
def avg_hold (signals : List Signal) : ℚ :=
  let hp := hold_periods signals
  if hp.isEmpty then 0 else (hp.map (Nat.cast : Nat → ℚ)).sum / hp.length

/-- Outcome of one `_load_series` call (after its retry decorator has run):
the series loaded, the file was absent (`FileNotFoundError`), or the load
failed with any other exception (wrong column count, parse error, ...). -/
inductive LoadOutcome where
  | ok (s : List (Nat × ℚ))
  | notFound
  | failed (msg : String)
deriving DecidableEq, Repr

/-- How resolution of one dataset can end abnormally in `main`
(lines 199-216): the `FileNotFoundError` raised at line 209 names only the
dataset key, and any non-`FileNotFoundError` load exception escapes the
`except FileNotFoundError` handler and propagates. -/
inductive ResolveError where
  | missingDataset (key : String)
  | loadFailure (msg : String)
deriving DecidableEq, Repr

/-- The candidate loop of `main` for a multi-file dataset (lines 200-209):
try each candidate in order; a successful load ends resolution; a
`FileNotFoundError` moves to the next candidate; any other exception
propagates immediately.  When every candidate was not-found, a required
dataset raises `missingDataset key`; an optional one resolves to `none`. -/
def resolveCandidates (key : String) (required : Bool) :
    List LoadOutcome → Except ResolveError (Option (List (Nat × ℚ)))
  | [] => if required then .error (.missingDataset key) else .ok none
  | o :: rest =>
    match o with
    | .ok s => .ok (some s)
    | .notFound => resolveCandidates key required rest
    | .failed msg => .error (.loadFailure msg)

/-- The retry loop of `retry_on_error` (`single_generator.py` lines 52-67,
identical in `data_fatcher.py` lines 54-69).  `ops i` is the outcome the
wrapped function would produce on its i-th invocation (0-based).  The first
component is the wrapper's result: `.ok (some a)` when an attempt returned
`a`, `.error e` when the final attempt raised `e` (re-raised by the
`attempt == max_retries - 1` branch), and `.ok none` for the trailing
`return None` reached only when the loop body never runs.  The second
component counts how many times the wrapped function was invoked. -/
def retryAux (ops : Nat → Except String ℚ) (max_retries attempt calls : Nat) :
    Except String (Option ℚ) × Nat :=
  if _h : attempt < max_retries then
    match ops attempt with
    | .ok a => (.ok (some a), calls + 1)
    | .error e =>
      if attempt = max_retries - 1 then (.error e, calls + 1)
      else retryAux ops max_retries (attempt + 1) (calls + 1)
  else (.ok none, calls)
termination_by max_retries - attempt

/-- Embeds `retry_on_error(max_retries)` applied to a function whose successive
invocation outcomes are `ops`: start at attempt 0 with no calls made. -/
def retry_on_error (max_retries : Nat) (ops : Nat → Except String ℚ) :
    Except String (Option ℚ) × Nat :=
  retryAux ops max_retries 0 0

/-- The date index surviving `pd.concat(..., axis=1, join="inner")`
(line 219): the intersection of all the input indexes, folded left to
right over the series list. -/
def joinDates (idxs : List (List Nat)) : List Nat :=
  match idxs with
  | [] => []
  | d :: ds => ds.foldl (fun acc idx => acc ∩ idx) d

/-- The value a series contributes at a date: the first pair carrying that
date, if any. -/
def lookupDate (d : Nat) (s : List (Nat × ℚ)) : Option ℚ :=
  (s.find? (fun p => p.1 = d)).map Prod.snd

/-- The merged frame's date column after `.sort_index()`: the surviving
dates in ascending order. -/
def mergedDates (ss : List (List (Nat × ℚ))) : List Nat :=
  (joinDates (ss.map (fun s => s.map Prod.fst))).mergeSort (fun a b => a ≤ b)

/-- Step 3 of `main`, for the pipeline's three required series in dict
order (spy, vix, cnn_fg): the inner-join concat followed by
`.sort_index()`, producing one `Row` per surviving date. -/
def merge3 (spy vix cnn : List (Nat × ℚ)) : List Row :=
  (mergedDates [spy, vix, cnn]).map
    (fun d => ⟨d, lookupDate d spy, lookupDate d vix, lookupDate d cnn⟩)

/-- Steps 3-5 of `main` (lines 218-227): merge the three series, run
`_validate_data` (whose `ValueError` aborts the run), then label every row
with the default-threshold `SignalGenerator`. -/
def runPipeline (spy vix cnn : List (Nat × ℚ)) :
    Except String (List (Row × Signal)) :=
  let df := merge3 spy vix cnn
  match validateResult df with
  | .error e => .error e
  | .ok _ => .ok (df.map (fun r => (r, generate_signal defaultGenerator r)))

/-- C1: `generate_signal` with the default thresholds returns HOLD when
cnn_fg or vix is missing; BUY when fg <= 20 and vix >= 30; otherwise SELL
when fg >= 80 and vix <= 15; otherwise HOLD — with inclusive bounds
(fg = 20, vix = 30 gives BUY; fg = 21, vix = 30 gives HOLD), regardless of
the date and spy_price fields of the row. -/
theorem generate_signal_default_spec (d : Nat) (spy fgo vixo : Option ℚ)
    (fg vix : ℚ) :
    (fgo = none ∨ vixo = none →
      generate_signal defaultGenerator ⟨d, spy, vixo, fgo⟩ = .HOLD) ∧
    (fg ≤ 20 → (30:ℚ) ≤ vix →
      generate_signal defaultGenerator ⟨d, spy, some vix, some fg⟩ = .BUY) ∧
    (¬(fg ≤ 20 ∧ (30:ℚ) ≤ vix) → (80:ℚ) ≤ fg → vix ≤ 15 →
      generate_signal defaultGenerator ⟨d, spy, some vix, some fg⟩ = .SELL) ∧
    (¬(fg ≤ 20 ∧ (30:ℚ) ≤ vix) → ¬((80:ℚ) ≤ fg ∧ vix ≤ 15) →
      generate_signal defaultGenerator ⟨d, spy, some vix, some fg⟩ = .HOLD) ∧
    generate_signal defaultGenerator ⟨d, spy, some 30, some 20⟩ = .BUY ∧
    generate_signal defaultGenerator ⟨d, spy, some 30, some 21⟩ = .HOLD := by
  refine ⟨?_, ?_, ?_, ?_, ?_, ?_⟩
  · rintro (rfl | rfl)
    · cases vixo <;> rfl
    · cases fgo <;> rfl
  · intro h1 h2
    simp [generate_signal, defaultGenerator, h1, h2]
  · intro hnb h1 h2
    simp [generate_signal, defaultGenerator, hnb, h1, h2]
  · intro hnb hns
    simp [generate_signal, defaultGenerator, hnb, hns]
  · norm_num [generate_signal, defaultGenerator]
  · norm_num [generate_signal, defaultGenerator]

/-- Witness for C1: a concrete extreme-fear row is labeled BUY through the
second conjunct. -/
theorem generate_signal_default_spec_witness :
    ((10:ℚ) ≤ 20) ∧ ((30:ℚ) ≤ 35) ∧
    generate_signal defaultGenerator ⟨0, none, some 35, some 10⟩ = .BUY :=
  ⟨by decide, by decide,
    (generate_signal_default_spec 0 none none none 10 35).2.1 (by decide) (by decide)⟩

/-- C2 (code defect): the run-length loop of `_print_signal_stats` never
appends the run still open when the loop ends, so on the sequence
[HOLD, HOLD, BUY, HOLD, SELL, HOLD, HOLD, HOLD] it collects run lengths
[2, 1] with mean 3/2 — not the [2, 1, 3] with mean 2 that the trailing
HOLD run requires. -/
theorem hold_periods_drops_trailing_run :
    hold_periods [.HOLD, .HOLD, .BUY, .HOLD, .SELL, .HOLD, .HOLD, .HOLD] = [2, 1] ∧
    avg_hold [.HOLD, .HOLD, .BUY, .HOLD, .SELL, .HOLD, .HOLD, .HOLD] = 3 / 2 ∧
    hold_periods [.HOLD, .HOLD, .BUY, .HOLD, .SELL, .HOLD, .HOLD, .HOLD] ≠ [2, 1, 3] := by
  have h1 : hold_periods [.HOLD, .HOLD, .BUY, .HOLD, .SELL, .HOLD, .HOLD, .HOLD] = [2, 1] := by
    decide
  refine ⟨h1, ?_, by decide⟩
  simp [avg_hold, h1]
  norm_num

/-- C3 counterexample: a threshold configuration violating the invariant
(buy fear bound 80 is not below sell fear bound 20, and buy volatility
bound 15 is not above sell volatility bound 30) is accepted by
construction, and the resulting generator goes on to produce labels. -/
theorem signalGenerator_accepts_invalid_thresholds :
    ¬ ((SignalGenerator.mk 80 15 20 30).buy_fg_threshold <
        (SignalGenerator.mk 80 15 20 30).sell_fg_threshold) ∧
    ¬ ((SignalGenerator.mk 80 15 20 30).sell_vix_threshold <
        (SignalGenerator.mk 80 15 20 30).buy_vix_threshold) ∧
    generate_signal (SignalGenerator.mk 80 15 20 30) ⟨0, none, some 20, some 50⟩ = .BUY := by
  decide

/-- C3 amended: `SignalGenerator.__init__` performs no validation: even for
thresholds violating the invariant, construction succeeds, the bounds are
stored exactly as given, and `generate_signal` produces labels from them. -/
theorem signalGenerator_no_config_validation (bf bv sf sv : ℚ)
    (_hviol : ¬ (bf < sf ∧ sv < bv)) :
    (SignalGenerator.mk bf bv sf sv).buy_fg_threshold = bf ∧
    (SignalGenerator.mk bf bv sf sv).buy_vix_threshold = bv ∧
    (SignalGenerator.mk bf bv sf sv).sell_fg_threshold = sf ∧
    (SignalGenerator.mk bf bv sf sv).sell_vix_threshold = sv ∧
    ∀ r : Row,
      generate_signal (SignalGenerator.mk bf bv sf sv) r = .BUY ∨
      generate_signal (SignalGenerator.mk bf bv sf sv) r = .SELL ∨
      generate_signal (SignalGenerator.mk bf bv sf sv) r = .HOLD := by
  refine ⟨rfl, rfl, rfl, rfl, fun r => ?_⟩
  cases hgs : generate_signal (SignalGenerator.mk bf bv sf sv) r
  · exact Or.inl rfl
  · exact Or.inr (Or.inl rfl)
  · exact Or.inr (Or.inr rfl)

/-- Witness for C3's amended statement at a concrete invariant-violating
configuration. -/
theorem signalGenerator_no_config_validation_witness :
    (¬ ((80:ℚ) < 20 ∧ (30:ℚ) < 15)) ∧
    ((SignalGenerator.mk (80:ℚ) 15 20 30).buy_fg_threshold = 80 ∧
      (SignalGenerator.mk (80:ℚ) 15 20 30).buy_vix_threshold = 15 ∧
      (SignalGenerator.mk (80:ℚ) 15 20 30).sell_fg_threshold = 20 ∧
      (SignalGenerator.mk (80:ℚ) 15 20 30).sell_vix_threshold = 30 ∧
      ∀ r : Row,
        generate_signal (SignalGenerator.mk 80 15 20 30) r = .BUY ∨
        generate_signal (SignalGenerator.mk 80 15 20 30) r = .SELL ∨
        generate_signal (SignalGenerator.mk 80 15 20 30) r = .HOLD) :=
  ⟨by decide, signalGenerator_no_config_validation 80 15 20 30 (by decide)⟩

/-- C5 counterexample: with candidates [failed-with-parse-error, valid],
resolution aborts with the load failure instead of proceeding to the valid
candidate, refuting that a failure of any kind moves on to the next
candidate. -/
theorem resolve_aborts_on_parse_failure :
    resolveCandidates "cnn_fg" true
        [.failed "parse error", .ok [(0, (1:ℚ))]] =
      .error (.loadFailure "parse error") ∧
    (Except.error (ResolveError.loadFailure "parse error") :
        Except ResolveError (Option (List (Nat × ℚ)))) ≠
      .ok (some [(0, (1:ℚ))]) := by
  exact ⟨rfl, by simp⟩

/-- C5 amended: resolution tries candidates in order and skips a candidate
only when its load ended in file-not-found; the first successful candidate
resolves and stops the search; a load failure of any other kind aborts
resolution immediately; and when every candidate was not-found, a required
dataset fails with an error naming only the dataset identifier, while an
optional one resolves to absent. -/
theorem resolveCandidates_spec (key : String) (required : Bool)
    (pre rest : List LoadOutcome) (s : List (Nat × ℚ)) (msg : String)
    (hpre : ∀ o ∈ pre, o = LoadOutcome.notFound) :
    resolveCandidates key required (pre ++ LoadOutcome.ok s :: rest) = .ok (some s) ∧
    resolveCandidates key required (pre ++ LoadOutcome.failed msg :: rest) =
      .error (.loadFailure msg) ∧
    resolveCandidates key true pre = .error (.missingDataset key) ∧
    resolveCandidates key false pre = .ok none := by
  induction pre with
  | nil => exact ⟨rfl, rfl, rfl, rfl⟩
  | cons o t ih =>
    have ho : o = LoadOutcome.notFound := hpre o (List.mem_cons_self o t)
    have ht : ∀ x ∈ t, x = LoadOutcome.notFound :=
      fun x hx => hpre x (List.mem_cons_of_mem o hx)
    subst ho
    simpa [resolveCandidates] using ih ht

/-- Witness for C5's amended statement: one not-found candidate followed by
a valid one resolves to the valid series; all-not-found raises the
missing-dataset error. -/
theorem resolveCandidates_spec_witness :
    (∀ o ∈ [LoadOutcome.notFound], o = LoadOutcome.notFound) ∧
    (resolveCandidates "cnn_fg" true
        ([LoadOutcome.notFound] ++ LoadOutcome.ok [(0, (1:ℚ))] :: []) =
      .ok (some [(0, (1:ℚ))]) ∧
    resolveCandidates "cnn_fg" true
        ([LoadOutcome.notFound] ++ LoadOutcome.failed "parse error" :: []) =
      .error (.loadFailure "parse error") ∧
    resolveCandidates "cnn_fg" true [LoadOutcome.notFound] =
      .error (.missingDataset "cnn_fg") ∧
    resolveCandidates "cnn_fg" false [LoadOutcome.notFound] = .ok none) :=
  ⟨by decide,
    resolveCandidates_spec "cnn_fg" true [LoadOutcome.notFound] []
      [(0, (1:ℚ))] "parse error" (by decide)⟩

/-- Unfolding the NaN-aware less-than comparator. -/
theorem oltB_eq_true_iff (x : Option ℚ) (c : ℚ) :
    oltB x c = true ↔ ∃ v, x = some v ∧ v < c := by
  cases x <;> simp [oltB]

/-- Unfolding the NaN-aware greater-than comparator. -/
theorem ogtB_eq_true_iff (x : Option ℚ) (c : ℚ) :
    ogtB x c = true ↔ ∃ v, x = some v ∧ c < v := by
  cases x <;> simp [ogtB]

/-- C6: `_validate_data` raises a fatal error exactly when the merged frame
holds a (non-null) vix value below 0 or a (non-null) cnn_fg value outside
[0, 100]; null fields and a consecutive date gap above 5 days only add the
corresponding non-fatal findings. -/
theorem validate_data_spec (df : List Row) :
    (validateResult df ≠ .ok () ↔
      ∃ r ∈ df, (∃ v, r.vix = some v ∧ v < 0) ∨
        ∃ f, r.cnn_fg = some f ∧ (f < 0 ∨ 100 < f)) ∧
    (df.any hasNullB = true → Finding.missingValues ∈ validateFindings df) ∧
    ((dateGaps (df.map Row.date)).any (fun g => 5 < g) = true →
      Finding.dateGap ∈ validateFindings df) := by
  refine ⟨?_, ?_, ?_⟩
  · unfold validateResult
    split_ifs with hv hc
    · simp only [ne_eq, reduceCtorEq, not_false_eq_true, true_iff]
      rcases List.any_eq_true.mp hv with ⟨r, hr, hb⟩
      exact ⟨r, hr, Or.inl ((oltB_eq_true_iff r.vix 0).mp hb)⟩
    · simp only [ne_eq, reduceCtorEq, not_false_eq_true, true_iff]
      rcases List.any_eq_true.mp hc with ⟨r, hr, hb⟩
      rw [Bool.or_eq_true] at hb
      rcases hb with hb1 | hb2
      · exact ⟨r, hr, Or.inr (by
          rcases (oltB_eq_true_iff r.cnn_fg 0).mp hb1 with ⟨f, hf, hlt⟩
          exact ⟨f, hf, Or.inl hlt⟩)⟩
      · exact ⟨r, hr, Or.inr (by
          rcases (ogtB_eq_true_iff r.cnn_fg 100).mp hb2 with ⟨f, hf, hgt⟩
          exact ⟨f, hf, Or.inr hgt⟩)⟩
    · simp only [ne_eq, not_true_eq_false, false_iff, not_exists]
      rintro r ⟨hr, (⟨v, hv2, hvlt⟩ | ⟨f, hf, hout⟩)⟩
      · exact hv (List.any_eq_true.mpr ⟨r, hr, (oltB_eq_true_iff r.vix 0).mpr ⟨v, hv2, hvlt⟩⟩)
      · refine hc (List.any_eq_true.mpr ⟨r, hr, ?_⟩)
        rw [Bool.or_eq_true]
        rcases hout with hlt | hgt
        · exact Or.inl ((oltB_eq_true_iff r.cnn_fg 0).mpr ⟨f, hf, hlt⟩)
        · exact Or.inr ((ogtB_eq_true_iff r.cnn_fg 100).mpr ⟨f, hf, hgt⟩)
  · intro h
    simp [validateFindings, h]
  · intro h
    simp [validateFindings, h]

/-- Witness for C6: a frame with a null field, an in-range data row and a
10-day gap is non-fatal and shows both warnings. -/
theorem validate_data_spec_witness :
    ([(⟨0, none, some 1, some 50⟩ : Row), ⟨10, some 1, some 2, some 60⟩].any hasNullB = true) ∧
    ((dateGaps ([(⟨0, none, some 1, some 50⟩ : Row), ⟨10, some 1, some 2, some 60⟩].map Row.date)).any
        (fun g => 5 < g) = true) ∧
    Finding.missingValues ∈
      validateFindings [(⟨0, none, some 1, some 50⟩ : Row), ⟨10, some 1, some 2, some 60⟩] ∧
    Finding.dateGap ∈
      validateFindings [(⟨0, none, some 1, some 50⟩ : Row), ⟨10, some 1, some 2, some 60⟩] :=
  ⟨by decide, by decide,
    (validate_data_spec [⟨0, none, some 1, some 50⟩, ⟨10, some 1, some 2, some 60⟩]).2.1 (by decide),
    (validate_data_spec [⟨0, none, some 1, some 50⟩, ⟨10, some 1, some 2, some 60⟩]).2.2 (by decide)⟩

/-- C9: null vix or cnn_fg values never trigger the fatal range checks: a
frame whose non-null values are all in range (and without a large date
gap) passes `_validate_data` with at most the missing-value warning, and
every one of its rows goes on to the signal engine. -/
theorem nulls_never_fatal (df : List Row)
    (hv : ∀ r ∈ df, ∀ v : ℚ, r.vix = some v → 0 ≤ v)
    (hf : ∀ r ∈ df, ∀ f : ℚ, r.cnn_fg = some f → 0 ≤ f ∧ f ≤ 100)
    (hg : ∀ g ∈ dateGaps (df.map Row.date), g ≤ 5) :
    validateResult df = .ok () ∧
    (∀ fnd ∈ validateFindings df, fnd = Finding.missingValues) ∧
    (df.map (fun r => generate_signal defaultGenerator r)).length = df.length := by
  have hvix : df.any (fun r => oltB r.vix 0) = false := by
    rw [List.any_eq_false]
    intro r hr
    rw [Bool.not_eq_true, ← Bool.not_eq_true] at *
    intro hb
    rcases (oltB_eq_true_iff r.vix 0).mp hb with ⟨v, hv2, hvlt⟩
    exact absurd (hv r hr v hv2) (not_le.mpr hvlt)
  have hcnn : df.any (fun r => oltB r.cnn_fg 0 || ogtB r.cnn_fg 100) = false := by
    rw [List.any_eq_false]
    intro r hr hb
    rw [Bool.or_eq_true] at hb
    rcases hb with hb1 | hb2
    · rcases (oltB_eq_true_iff r.cnn_fg 0).mp hb1 with ⟨f, hf2, hlt⟩
      exact absurd (hf r hr f hf2).1 (not_le.mpr hlt)
    · rcases (ogtB_eq_true_iff r.cnn_fg 100).mp hb2 with ⟨f, hf2, hgt⟩
      exact absurd (hf r hr f hf2).2 (not_le.mpr hgt)
  have hgap : (dateGaps (df.map Row.date)).any (fun g => 5 < g) = false := by
    rw [List.any_eq_false]
    intro g hgm
    simp only [decide_eq_true_eq, not_lt]
    exact hg g hgm
  refine ⟨?_, ?_, List.length_map df _⟩
  · unfold validateResult
    rw [hvix, hcnn]
    rfl
  · intro fnd hfnd
    unfold validateFindings at hfnd
    rw [hgap] at hfnd
    simp only [if_neg Bool.false_ne_true, List.append_nil] at hfnd
    split_ifs at hfnd with hnull
    · exact List.mem_singleton.mp hfnd
    · exact absurd hfnd (List.not_mem_nil fnd)

/-- Witness for C9: one row with a null vix passes validation with only
the missing-value warning. -/
theorem nulls_never_fatal_witness :
    (∀ r ∈ [(⟨0, some 1, none, some 50⟩ : Row)], ∀ v : ℚ, r.vix = some v → 0 ≤ v) ∧
    (∀ r ∈ [(⟨0, some 1, none, some 50⟩ : Row)], ∀ f : ℚ, r.cnn_fg = some f → 0 ≤ f ∧ f ≤ 100) ∧
    (∀ g ∈ dateGaps ([(⟨0, some 1, none, some 50⟩ : Row)].map Row.date), g ≤ 5) ∧
    (validateResult [(⟨0, some 1, none, some 50⟩ : Row)] = .ok () ∧
      (∀ fnd ∈ validateFindings [(⟨0, some 1, none, some 50⟩ : Row)],
        fnd = Finding.missingValues) ∧
      ([(⟨0, some 1, none, some 50⟩ : Row)].map
          (fun r => generate_signal defaultGenerator r)).length =
        [(⟨0, some 1, none, some 50⟩ : Row)].length) := by
  have h1 : ∀ r ∈ [(⟨0, some 1, none, some 50⟩ : Row)], ∀ v : ℚ, r.vix = some v → 0 ≤ v := by
    intro r hr v hv
    rcases List.mem_singleton.mp hr with rfl
    cases hv
  have h2 : ∀ r ∈ [(⟨0, some 1, none, some 50⟩ : Row)], ∀ f : ℚ, r.cnn_fg = some f → 0 ≤ f ∧ f ≤ 100 := by
    intro r hr f hf
    rcases List.mem_singleton.mp hr with rfl
    cases hf
    exact ⟨by norm_num, by norm_num⟩
  have h3 : ∀ g ∈ dateGaps ([(⟨0, some 1, none, some 50⟩ : Row)].map Row.date), g ≤ 5 := by
    intro g hgm
    simp [dateGaps] at hgm
  exact ⟨h1, h2, h3, nulls_never_fatal [⟨0, some 1, none, some 50⟩] h1 h2 h3⟩

/-- Membership in a left fold of list intersections: a date survives the
fold exactly when it lies in the accumulator and in every folded index. -/
theorem mem_foldl_inter (t : List (List Nat)) (h : List Nat) (d : Nat) :
    d ∈ t.foldl (fun acc idx => acc ∩ idx) h ↔ d ∈ h ∧ ∀ idx ∈ t, d ∈ idx := by
  induction t generalizing h with
  | nil => simp
  | cons i t2 ih =>
    rw [List.foldl_cons, ih (h ∩ i)]
    simp only [List.mem_inter_iff, List.mem_cons]
    constructor
    · rintro ⟨⟨hh, hi⟩, ht⟩
      exact ⟨hh, fun idx hidx => by
        rcases hidx with rfl | hidx
        · exact hi
        · exact ht idx hidx⟩
    · rintro ⟨hh, ht⟩
      exact ⟨⟨hh, ht i (Or.inl rfl)⟩, fun idx hidx => ht idx (Or.inr hidx)⟩

/-- A left fold of intersections of a duplicate-free accumulator stays
duplicate-free. -/
theorem nodup_foldl_inter (t : List (List Nat)) (h : List Nat) (hh : h.Nodup) :
    (t.foldl (fun acc idx => acc ∩ idx) h).Nodup := by
  induction t generalizing h with
  | nil => simpa
  | cons i t2 ih => exact ih (h ∩ i) (hh.inter i)

/-- Membership in `joinDates` of a nonempty index list is membership in
every index. -/
theorem mem_joinDates (idxs : List (List Nat)) (hne : idxs ≠ []) (d : Nat) :
    d ∈ joinDates idxs ↔ ∀ idx ∈ idxs, d ∈ idx := by
  match idxs with
  | [] => exact absurd rfl hne
  | h :: t =>
    rw [joinDates, mem_foldl_inter]
    simp only [List.mem_cons]
    constructor
    · rintro ⟨hh, ht⟩ idx hidx
      rcases hidx with rfl | hidx
      · exact hh
      · exact ht idx hidx
    · intro hall
      exact ⟨hall h (Or.inl rfl), fun idx hidx => hall idx (Or.inr hidx)⟩

/-- C7: when the three required series have no common date, the merged
frame is empty and the pipeline still completes: validation passes and the
labeling stage runs, yielding the observable empty result rather than an
error. -/
theorem empty_intersection_not_fatal (spy vix cnn : List (Nat × ℚ))
    (hdisj : ∀ d ∈ spy.map Prod.fst,
      d ∉ vix.map Prod.fst ∨ d ∉ cnn.map Prod.fst) :
    merge3 spy vix cnn = [] ∧ runPipeline spy vix cnn = .ok [] := by
  have hjoin : joinDates [spy.map Prod.fst, vix.map Prod.fst, cnn.map Prod.fst] = [] := by
    rw [List.eq_nil_iff_forall_not_mem]
    intro d hd
    rw [mem_joinDates _ (by simp) d] at hd
    have hs : d ∈ spy.map Prod.fst := hd _ (by simp)
    have hv : d ∈ vix.map Prod.fst := hd _ (by simp)
    have hc : d ∈ cnn.map Prod.fst := hd _ (by simp)
    rcases hdisj d hs with h | h
    · exact h hv
    · exact h hc
  have hmerge : merge3 spy vix cnn = [] := by
    unfold merge3 mergedDates
    simp only [List.map_cons, List.map_nil]
    rw [hjoin, List.mergeSort_nil, List.map_nil]
  refine ⟨hmerge, ?_⟩
  unfold runPipeline
  rw [hmerge]
  rfl

/-- Witness for C7: three single-day series on pairwise different days. -/
theorem empty_intersection_not_fatal_witness :
    (∀ d ∈ ([((0:Nat), (1:ℚ))]).map Prod.fst,
      d ∉ ([((1:Nat), (2:ℚ))]).map Prod.fst ∨ d ∉ ([((2:Nat), (3:ℚ))]).map Prod.fst) ∧
    merge3 [(0, 1)] [(1, 2)] [(2, 3)] = [] ∧
    runPipeline [(0, 1)] [(1, 2)] [(2, 3)] = .ok [] :=
  ⟨by decide,
    (empty_intersection_not_fatal [(0, 1)] [(1, 2)] [(2, 3)] (by decide)).1,
    (empty_intersection_not_fatal [(0, 1)] [(1, 2)] [(2, 3)] (by decide)).2⟩

/-- A date is in the merged (sorted) index exactly when every input series
carries it. -/
theorem mem_mergedDates (ss : List (List (Nat × ℚ))) (hne : ss ≠ []) (d : Nat) :
    d ∈ mergedDates ss ↔ ∀ s ∈ ss, d ∈ s.map Prod.fst := by
  unfold mergedDates
  rw [(List.mergeSort_perm _ _).mem_iff,
    mem_joinDates _ (by simpa using hne) d]
  constructor
  · intro h s hs
    exact h _ (List.mem_map_of_mem _ hs)
  · intro h idx hidx
    rcases List.mem_map.mp hidx with ⟨s, hs, rfl⟩
    exact h s hs

/-- The merged index is ascending: `sort_index` sorts the surviving
dates. -/
theorem sorted_mergedDates (ss : List (List (Nat × ℚ))) :
    (mergedDates ss).Sorted (fun a b : Nat => a ≤ b) := by
  have htrans : ∀ (a b c : Nat),
      decide (a ≤ b) = true → decide (b ≤ c) = true → decide (a ≤ c) = true := by
    intro a b c hab hbc
    simp only [decide_eq_true_eq] at *
    omega
  have htotal : ∀ (a b : Nat), (decide (a ≤ b) || decide (b ≤ a)) = true := by
    intro a b
    simp only [Bool.or_eq_true, decide_eq_true_eq]
    omega
  have h := List.sorted_mergeSort htrans htotal
    (joinDates (ss.map (fun s => s.map Prod.fst)))
  unfold mergedDates
  exact h.imp (fun hab => by simpa using hab)

/-- When each input series has duplicate-free dates, so does the merged
index. -/
theorem nodup_mergedDates (ss : List (List (Nat × ℚ))) (hne : ss ≠ [])
    (hnd : ∀ s ∈ ss, (s.map Prod.fst).Nodup) :
    (mergedDates ss).Nodup := by
  unfold mergedDates
  rw [(List.mergeSort_perm _ _).nodup_iff]
  match ss, hne with
  | s0 :: st, _ =>
    have heq : joinDates ((s0 :: st).map (fun s => s.map Prod.fst)) =
        (st.map (fun s => s.map Prod.fst)).foldl
          (fun acc idx => acc ∩ idx) (s0.map Prod.fst) := by
      simp [joinDates]
    rw [heq]
    exact nodup_foldl_inter _ _ (hnd s0 (List.mem_cons_self _ _))

/-- C4: the reconciler join keeps exactly the dates present in every input
series, its surviving-date list is invariant under reordering the inputs,
and the output is always sorted ascending by date — the input series may
arrive shuffled or descending. -/
theorem reconciler_spec (ss : List (List (Nat × ℚ))) (hne : ss ≠ [])
    (hnd : ∀ s ∈ ss, (s.map Prod.fst).Nodup) :
    (∀ d : Nat, d ∈ mergedDates ss ↔ ∀ s ∈ ss, d ∈ s.map Prod.fst) ∧
    (∀ ss2 : List (List (Nat × ℚ)), ss.Perm ss2 →
      mergedDates ss = mergedDates ss2) ∧
    (mergedDates ss).Sorted (fun a b : Nat => a ≤ b) := by
  refine ⟨mem_mergedDates ss hne, ?_, sorted_mergedDates ss⟩
  intro ss2 hperm
  have hne2 : ss2 ≠ [] := by
    intro h
    rw [h] at hperm
    exact hne hperm.eq_nil
  have hnd2 : ∀ s ∈ ss2, (s.map Prod.fst).Nodup :=
    fun s hs => hnd s (hperm.mem_iff.mpr hs)
  apply List.eq_of_perm_of_sorted ?_ (sorted_mergedDates ss) (sorted_mergedDates ss2)
  rw [List.perm_ext_iff_of_nodup (nodup_mergedDates ss hne hnd)
    (nodup_mergedDates ss2 hne2 hnd2)]
  intro d
  rw [mem_mergedDates ss hne d, mem_mergedDates ss2 hne2 d]
  constructor
  · intro h s hs
    exact h s (hperm.mem_iff.mpr hs)
  · intro h s hs
    exact h s (hperm.mem_iff.mp hs)

/-- Witness for C4: two series, the first with descending dates [1, 0],
the second with date [0]. -/
theorem reconciler_spec_witness :
    ([[((1:Nat), (1:ℚ)), (0, 2)], [(0, 3)]] ≠ ([] : List (List (Nat × ℚ)))) ∧
    (∀ s ∈ [[((1:Nat), (1:ℚ)), (0, 2)], [(0, 3)]], (s.map Prod.fst).Nodup) ∧
    ((∀ d : Nat, d ∈ mergedDates [[(1, 1), (0, 2)], [(0, 3)]] ↔
        ∀ s ∈ [[((1:Nat), (1:ℚ)), (0, 2)], [(0, 3)]], d ∈ s.map Prod.fst) ∧
      (∀ ss2 : List (List (Nat × ℚ)),
        List.Perm [[(1, 1), (0, 2)], [(0, 3)]] ss2 →
          mergedDates [[(1, 1), (0, 2)], [(0, 3)]] = mergedDates ss2) ∧
      (mergedDates [[((1:Nat), (1:ℚ)), (0, 2)], [(0, 3)]]).Sorted
        (fun a b : Nat => a ≤ b)) :=
  ⟨by decide, by decide,
    reconciler_spec [[(1, 1), (0, 2)], [(0, 3)]] (by decide) (by decide)⟩

/-- Classification of the retry loop from any start attempt: either some
attempt in range succeeds after a streak of failures — the loop returns its
value, having invoked the function once per attempt up to and including the
successful one — or every attempt in range fails and the loop re-raises the
final attempt's error after invoking the function once per attempt. -/
theorem retryAux_classify (ops : Nat → Except String ℚ) (n : Nat) :
    ∀ k attempt calls, attempt < n → n - attempt = k →
      (∃ i, attempt ≤ i ∧ i < n ∧
        (∀ j, attempt ≤ j → j < i → ∃ e, ops j = .error e) ∧
        ∃ a, ops i = .ok a ∧
          retryAux ops n attempt calls = (.ok (some a), calls + (i - attempt) + 1)) ∨
      ((∀ i, attempt ≤ i → i < n → ∃ e, ops i = .error e) ∧
        ∃ e, ops (n - 1) = .error e ∧
          retryAux ops n attempt calls = (.error e, calls + (n - attempt))) := by
  intro k
  induction k with
  | zero =>
    intro attempt calls h hk
    exact absurd hk (by omega)
  | succ k ih =>
    intro attempt calls h hk
    cases hop : ops attempt with
    | ok a =>
      have hstep : retryAux ops n attempt calls = (.ok (some a), calls + 1) := by
        unfold retryAux
        rw [dif_pos h, hop]
      left
      refine ⟨attempt, Nat.le_refl attempt, h, ?_, a, hop, ?_⟩
      · intro j hj1 hj2
        exact absurd hj2 (Nat.not_lt.mpr hj1)
      · rw [hstep, Prod.mk.injEq]
        exact ⟨rfl, by omega⟩
    | error e =>
      by_cases hlast : attempt = n - 1
      · have hstep : retryAux ops n attempt calls = (.error e, calls + 1) := by
          unfold retryAux
          rw [dif_pos h, hop]
          exact if_pos hlast
        right
        refine ⟨?_, e, ?_, ?_⟩
        · intro i hi1 hi2
          have hieq : i = attempt := by omega
          rw [hieq]
          exact ⟨e, hop⟩
        · rw [← hlast]
          exact hop
        · rw [hstep, Prod.mk.injEq]
          exact ⟨rfl, by omega⟩
      · have hstep : retryAux ops n attempt calls =
            retryAux ops n (attempt + 1) (calls + 1) := by
          conv_lhs => unfold retryAux
          rw [dif_pos h, hop]
          exact if_neg hlast
        have h2 : attempt + 1 < n := by omega
        have hk2 : n - (attempt + 1) = k := by omega
        rcases ih (attempt + 1) (calls + 1) h2 hk2 with
          ⟨i, hi1, hi2, herrs, a, hopi, heq⟩ | ⟨herrs, e2, hoplast, heq⟩
        · left
          refine ⟨i, by omega, hi2, ?_, a, hopi, ?_⟩
          · intro j hj1 hj2
            by_cases hj : j = attempt
            · rw [hj]
              exact ⟨e, hop⟩
            · exact herrs j (by omega) hj2
          · rw [hstep, heq, Prod.mk.injEq]
            exact ⟨rfl, by omega⟩
        · right
          refine ⟨?_, e2, hoplast, ?_⟩
          · intro i hi1 hi2
            by_cases hj : i = attempt
            · rw [hj]
              exact ⟨e, hop⟩
            · exact herrs i (by omega) hi2
          · rw [hstep, heq, Prod.mk.injEq]
            exact ⟨rfl, by omega⟩

/-- C8: with max_retries >= 1, the wrapper invokes the wrapped function at
most max_retries times; the first successful invocation's value is
returned (no further attempts are made: exactly the failed attempts before
it plus itself are invoked); and when every attempt fails, the final
attempt's exception is the one propagated. -/
theorem retry_on_error_spec (n : Nat) (ops : Nat → Except String ℚ)
    (hn : 1 ≤ n) :
    (retry_on_error n ops).2 ≤ n ∧
    (∀ i a, i < n → ops i = .ok a → (∀ j, j < i → ∃ e, ops j = .error e) →
      (retry_on_error n ops).1 = .ok (some a) ∧
        (retry_on_error n ops).2 = i + 1) ∧
    ((∀ i, i < n → ∃ e, ops i = .error e) →
      ∃ e, ops (n - 1) = .error e ∧ (retry_on_error n ops).1 = .error e ∧
        (retry_on_error n ops).2 = n) := by
  rcases retryAux_classify ops n n 0 0 (by omega) (by omega) with
    ⟨i, hi1, hi2, herrs, a, hopi, heq⟩ | ⟨herrs, e, hoplast, heq⟩
  · have e1 : (retry_on_error n ops).1 = .ok (some a) := by
      unfold retry_on_error
      rw [heq]
    have e2 : (retry_on_error n ops).2 = 0 + (i - 0) + 1 := by
      unfold retry_on_error
      rw [heq]
    refine ⟨by omega, ?_, ?_⟩
    · intro i2 a2 hi2n hopi2 hfirst
      have hii : i = i2 := by
        by_contra hne2
        rcases Nat.lt_or_ge i i2 with hlt | hge
        · rcases hfirst i hlt with ⟨e, he⟩
          rw [hopi] at he
          exact Except.noConfusion he
        · have hlt2 : i2 < i := by omega
          rcases herrs i2 (by omega) hlt2 with ⟨e, he⟩
          rw [hopi2] at he
          exact Except.noConfusion he
      rw [← hii] at hopi2
      rw [hopi] at hopi2
      have ha : a = a2 := Except.ok.inj hopi2
      rw [← ha, ← hii]
      exact ⟨e1, by omega⟩
    · intro hall
      rcases hall i hi2 with ⟨e, he⟩
      rw [hopi] at he
      exact Except.noConfusion he
  · have e1 : (retry_on_error n ops).1 = .error e := by
      unfold retry_on_error
      rw [heq]
    have e2 : (retry_on_error n ops).2 = 0 + (n - 0) := by
      unfold retry_on_error
      rw [heq]
    refine ⟨by omega, ?_, ?_⟩
    · intro i a hi hopi hfirst
      rcases herrs i (by omega) hi with ⟨e2b, he2⟩
      rw [hopi] at he2
      exact Except.noConfusion he2
    · intro hall
      exact ⟨e, hoplast, e1, by omega⟩

/-- Witness for C8: two attempts, the first fails and the second returns 7;
the wrapper returns 7 having made both invocations. -/
theorem retry_on_error_spec_witness :
    1 ≤ 2 ∧
    (retry_on_error 2 (fun i => if i = 0 then .error "boom" else .ok 7)).1 =
      .ok (some 7) ∧
    (retry_on_error 2 (fun i => if i = 0 then .error "boom" else .ok 7)).2 = 2 := by
  refine ⟨by omega, ?_⟩
  have h := (retry_on_error_spec 2
      (fun i => if i = 0 then .error "boom" else .ok 7) (by omega)).2.1
    1 7 (by omega) (by simp) ?_
  · exact h
  · intro j hj
    have hj0 : j = 0 := by omega
    rw [hj0]
    exact ⟨"boom", rfl⟩

/-- C10: with max_retries >= 1, the wrapper's result is either a value an
invocation actually produced or the final attempt's exception; the trailing
`return None` is unreachable, so the caller never sees a fabricated None. -/
theorem retry_no_fabricated_none (n : Nat) (ops : Nat → Except String ℚ)
    (hn : 1 ≤ n) :
    (retry_on_error n ops).1 ≠ .ok none ∧
    (∀ a : ℚ, (retry_on_error n ops).1 = .ok (some a) →
      ∃ i, i < n ∧ ops i = .ok a) ∧
    (∀ e : String, (retry_on_error n ops).1 = .error e →
      ops (n - 1) = .error e) := by
  rcases retryAux_classify ops n n 0 0 (by omega) (by omega) with
    ⟨i, hi1, hi2, herrs, a, hopi, heq⟩ | ⟨herrs, e, hoplast, heq⟩
  · have e1 : (retry_on_error n ops).1 = .ok (some a) := by
      unfold retry_on_error
      rw [heq]
    refine ⟨?_, ?_, ?_⟩
    · rw [e1]
      intro hcon
      exact Option.noConfusion (Except.ok.inj hcon)
    · intro a2 ha2
      rw [e1] at ha2
      have ha : a = a2 := Option.some.inj (Except.ok.inj ha2)
      rw [← ha]
      exact ⟨i, hi2, hopi⟩
    · intro e2 he2
      rw [e1] at he2
      exact Except.noConfusion he2
  · have e1 : (retry_on_error n ops).1 = .error e := by
      unfold retry_on_error
      rw [heq]
    refine ⟨?_, ?_, ?_⟩
    · rw [e1]
      intro hcon
      exact Except.noConfusion hcon
    · intro a2 ha2
      rw [e1] at ha2
      exact Except.noConfusion ha2
    · intro e2 he2
      rw [e1] at he2
      rw [← Except.error.inj he2]
      exact hoplast

/-- Witness for C10: a single always-succeeding attempt never yields the
fabricated None. -/
theorem retry_no_fabricated_none_witness :
    1 ≤ 1 ∧
    (retry_on_error 1 (fun _ => Except.ok (5:ℚ))).1 ≠ .ok none :=
  ⟨by omega, (retry_no_fabricated_none 1 (fun _ => Except.ok (5:ℚ)) (by omega)).1⟩

end VixCnn
